import Mathlib

/-
Verification of the natural-language specification of the PyART-processing
repository (quality_control.py) against a shallow Lean embedding of its code.

Modelling conventions:
- A gate measurement is `Option ℚ`: `none` is the missing sentinel (a masked /
  NaN gate).  Numpy comparisons against NaN are false, which the `vGT` / `vLT`
  helpers reproduce by returning `false` on `none`.
- A radar volume holds an association list from field name to its flat list of
  gate values, plus the two sweep-index arrays.  2-D [ray, gate] arrays are
  modelled flattened: every operation in the source is gate-wise.
- Python floats are modelled as exact rationals (0.2 becomes 1/5).
- A fallible Python computation (KeyError on a missing field name, IndexError
  on a shape mismatch in a masked assignment) is modelled with `Option`:
  `none` is an uncaught error propagating to the caller.
-/

set_option autoImplicit false

namespace QC

/-- A single gate value; `none` is the missing / masked sentinel. -/
abbrev Value := Option ℚ

/-- Strict greater-than against a threshold, false on a missing value
(numpy NaN comparison semantics). -/
def vGT (v : Value) (t : ℚ) : Bool :=
  match v with
  | none => false
  | some x => decide (t < x)

/-- Strict less-than against a threshold, false on a missing value. -/
def vLT (v : Value) (t : ℚ) : Bool :=
  match v with
  | none => false
  | some x => decide (x < t)

/-- Radar volume: named per-gate field arrays and sweep index metadata. -/
structure Radar where
  fields : List (String × List Value)
  sweep_start_ray_index : List Int
  sweep_end_ray_index : List Int
deriving DecidableEq

/-- First-match lookup in the field association list (a Python dict access;
`none` models a KeyError). -/
def fieldLookup : List (String × List Value) → String → Option (List Value)
  | [], _ => none
  | (k, d) :: t, f => if k = f then some d else fieldLookup t f

/-- Look a field's data up in a radar volume. -/
def lookupF (r : Radar) (f : String) : Option (List Value) :=
  fieldLookup r.fields f

/-- Replace the data stored under a field name. -/
def updF (l : List (String × List Value)) (f : String) (d : List Value) :
    List (String × List Value) :=
  l.map fun p => if p.1 = f then (f, d) else p

/-- Value of field `n` at gate `i`, when both exist. -/
def gateVal (r : Radar) (n : String) (i : Nat) : Option Value :=
  (lookupF r n).bind fun e => e.get? i

/-- One masked numpy assignment `data[mask] = None`: gates where the mask is
true become the missing sentinel. -/
def setMaskedRow (mask : List Bool) (e : List Value) : List Value :=
  List.zipWith (fun b v => if b then none else v) mask e

/-- Assign the missing sentinel under `mask` in one named field, requiring the
mask and the field to have the same shape (numpy raises otherwise). -/
def maskField (mask : List Bool) (f : String) (r : Radar) : Option Radar :=
  match lookupF r f with
  | none => none
  | some e =>
    if mask.length = e.length then
      some { r with fields := updF r.fields f (setMaskedRow mask e) }
    else none

/-- The per-field loop body shared by the two-mask noise filters: assign the
`over` mask, then the `under` mask, across the listed fields in order. -/
def maskAllOU (over under : List Bool) : List String → Radar → Option Radar
  | [], r => some r
  | n :: ns, r =>
    match maskField over n r with
    | none => none
    | some r1 =>
      match maskField under n r1 with
      | none => none
      | some r2 => maskAllOU over under ns r2

/-- The per-field loop for the single-mask filters (SNR, mountain clutter). -/
def maskAll1 (mask : List Bool) : List String → Radar → Option Radar
  | [], r => some r
  | n :: ns, r =>
    match maskField mask n r with
    | none => none
    | some r1 => maskAll1 mask ns r1

/-- Compute the `over` / `under` masks from driver data `d` and apply them to
every listed field; the common body of the bounded noise filters. -/
def noiseOU (d : List Value) (lo hi : ℚ) (ns : List String) (r : Radar) :
    Option Radar :=
  maskAllOU (d.map (vGT · hi)) (d.map (vLT · lo)) ns r

/-- Clamp of one gate value used by `set2range`.  The source assigns the
over-mask (value > val_max) first and the under-mask (value < val_min)
second, both masks taken from the original data, so the under branch wins. -/
def clampV (val_min val_max : ℚ) (v : Value) : Value :=
  match v with
  | none => none
  | some x =>
    if x < val_min then some val_min
    else if val_max < x then some val_max
    else some x

/-- `set2range(radar, field, val_max, val_min)`: clamp one named field to the
given bounds; a missing field name is an uncaught KeyError. -/
def set2range (r : Radar) (f : String) (val_max val_min : ℚ) : Option Radar :=
  match lookupF r f with
  | none => none
  | some d =>
    some { r with fields := updF r.fields f (d.map (clampV val_min val_max)) }

/-- `removeNoiseZ(radar, radar_fieldnames, Z_min, Z_max)`: mask all listed
fields where reflectivity is out of bounds.  On a KeyError for
`reflectivity`, the source reads the over mask from `DBZH` and the under
mask from `DBZV`; if those are also missing the KeyError is uncaught. -/
def removeNoiseZ (r : Radar) (ns : List String) (zmin zmax : ℚ) :
    Option Radar :=
  match lookupF r "reflectivity" with
  | some d => noiseOU d zmin zmax ns r
  | none =>
    match lookupF r "DBZH", lookupF r "DBZV" with
    | some dh, some dv =>
      maskAllOU (dh.map (vGT · zmax)) (dv.map (vLT · zmin)) ns r
    | _, _ => none

/-- `removeMountainClutter(radar, radar_fieldnames)`: mask all listed fields
where the dealiased velocity is strictly between -0.2 and 0.2 and the
reflectivity strictly exceeds Z_max = 25. -/
def removeMountainClutter (r : Radar) (ns : List String) : Option Radar :=
  match lookupF r "dealiased_velocity", lookupF r "reflectivity" with
  | some v, some z =>
    let slow := v.map (vLT · (1/5))
    let slow2 := v.map (vGT · (-(1/5)))
    let near_stationary := List.zipWith (fun a b => a && b) slow slow2
    let highz := z.map (vGT · 25)
    if near_stationary.length = highz.length then
      maskAll1 (List.zipWith (fun a b => a && b) near_stationary highz) ns r
    else none
  | _, _ => none

/-- `removeNoiseZdr(radar, radar_fieldnames, Zdr_min, Zdr_max)`: driver is
`differential_reflectivity`, no fallback names. -/
def removeNoiseZdr (r : Radar) (ns : List String) (lo hi : ℚ) : Option Radar :=
  match lookupF r "differential_reflectivity" with
  | none => none
  | some d => noiseOU d lo hi ns r

/-- `removeNoiseRhoHV(radar, radar_fieldnames, rhohv_min, rhohv_max)`: driver
is `cross_correlation_ratio`, falling back to `RHOHV`, then to
`correlation_coefficient`. -/
def removeNoiseRhoHV (r : Radar) (ns : List String) (lo hi : ℚ) :
    Option Radar :=
  match lookupF r "cross_correlation_ratio" with
  | some d => noiseOU d lo hi ns r
  | none =>
    match lookupF r "RHOHV" with
    | some d => noiseOU d lo hi ns r
    | none =>
      match lookupF r "correlation_coefficient" with
      | some d => noiseOU d lo hi ns r
      | none => none

/-- `removeNoisePhiDP(radar, radar_fieldnames, PhiDP_min, PhiDP_max)`: driver
is `PHIDP`, falling back to `specific_differential_phase`. -/
def removeNoisePhiDP (r : Radar) (ns : List String) (lo hi : ℚ) :
    Option Radar :=
  match lookupF r "PHIDP" with
  | some d => noiseOU d lo hi ns r
  | none =>
    match lookupF r "specific_differential_phase" with
    | some d => noiseOU d lo hi ns r
    | none => none

/-- `removeNoiseNCP(radar, radar_fieldnames, ncp_min, ncp_max)`: driver is
`normalized_coherent_power`, no fallback names. -/
def removeNoiseNCP (r : Radar) (ns : List String) (lo hi : ℚ) : Option Radar :=
  match lookupF r "normalized_coherent_power" with
  | none => none
  | some d => noiseOU d lo hi ns r

/-- `removeNoiseSNR(radar, radar_fieldnames, snr_min, snr_max)`: the source
computes `within = logical_and(snr < snr_max, snr > snr_min)` and assigns the
sentinel on the complement `~within`; so only the open interval is kept and
gates with NaN snr are also masked. -/
def removeNoiseSNR (r : Radar) (ns : List String) (lo hi : ℚ) : Option Radar :=
  match lookupF r "snr" with
  | none => none
  | some d =>
    let within := d.map fun v => vLT v hi && vGT v lo
    maskAll1 (within.map fun b => !b) ns r

/-- `fix_CHILL_PPI_sweep_start_end(radar)`: hardcoded overwrite of the two
sweep index arrays; nothing else is touched. -/
def fix_CHILL_PPI_sweep_start_end (r : Radar) : Radar :=
  { r with
    sweep_start_ray_index := [0, 382, 789, 1208, 1604, 2027]
    sweep_end_ray_index := [381, 788, 1176, 1567, 1993, 2428] }

/-- Python index normalization for a slice endpoint: a negative index counts
from the end and the result is clamped into [0, n]. -/
def pyIdx (n : Nat) (i : Int) : Nat :=
  if i < 0 then (i + n).toNat else min i.toNat n

/-- Python slice `s[a:b]`: characters at normalized positions a ≤ pos < b. -/
def pySlice (s : List Char) (a b : Int) : List Char :=
  let na := pyIdx s.length a
  let nb := pyIdx s.length b
  (s.drop na).take (nb - na)

/-- Fuel-driven core of Python `str.replace`: replace every non-overlapping
occurrence of the nonempty pattern, scanning left to right.  The fuel is at
least the string length at every call, so the base fuel case is dead code. -/
def strReplaceFuel (pat rep : List Char) : Nat → List Char → List Char
  | 0, s => s
  | _ + 1, [] => []
  | fuel + 1, c :: s =>
    if pat.isPrefixOf (c :: s) then
      rep ++ strReplaceFuel pat rep fuel (s.drop (pat.length - 1))
    else
      c :: strReplaceFuel pat rep fuel s

/-- Python `s.replace(pat, rep)` (replace all occurrences).  With an empty
pattern Python interleaves `rep` before every character and at the end. -/
def strReplace (s pat rep : List Char) : List Char :=
  if pat.isEmpty then rep ++ s.foldr (fun c acc => c :: (rep ++ acc)) []
  else strReplaceFuel pat rep s.length s

/-- The replacement text `SUR_` used by the filename repair. -/
def surText : List Char := ['S', 'U', 'R', '_']

/-- Core of `PPI_fixfilename(filename)` on character lists, mirroring the
source: guard on the slice [end-17, end-15), derive `chopstr` (and
`longchopstr` when `chopstr` ends in '0') from the original name, and run
the replace calls in source order. -/
def fixList (s : List Char) : List Char :=
  let end_ : Int := s.length
  if pySlice s (end_ - 17) (end_ - 15) = ['s', '0'] then
    let chopstr := pySlice s (end_ - 17) (end_ - 6)
    let s1 :=
      if pySlice chopstr (-1) chopstr.length = ['0'] then
        let longchopstr := pySlice s (end_ - 17) (end_ - 5)
        strReplace s longchopstr surText
      else s
    strReplace s1 chopstr surText
  else s

/-- `PPI_fixfilename(filename)` on strings. -/
def PPI_fixfilename (s : String) : String :=
  (fixList s.toList).asString

/-- The part of a radar volume inspected by `dealias`: the container tag and,
for each sweep, the first ray of the field being dealiased (the source tests
`radar.fields[name2dealias]['data'][sweep][0,:].flatten().count() != 0`). -/
structure VRadar where
  original_container : String
  sweepFirstRays : List (List Value)
deriving DecidableEq

/-- Description of the external `dealias_region_based` call made by `dealias`:
whether degenerate sweeps were filtered out first, which sweep indices were
kept, and the `nyquist_vel` keyword (`none` when the keyword is omitted so
the library infers per-sweep values; `some nv` when passed explicitly). -/
structure DealiasTrace where
  prefiltered : Bool
  sweepsUsed : List Nat
  nyquistArg : Option (Option ℚ)
deriving DecidableEq

/-- Sweeps whose first ray has at least one unmasked value (`count() != 0`). -/
def goodSweeps (r : VRadar) : List Nat :=
  (List.range r.sweepFirstRays.length).filter fun i =>
    (r.sweepFirstRays.getD i []).any fun v => v.isSome

/-- Orchestration skeleton of `dealias(...)`: the sweep pre-filter runs only
when the container tag is not `NEXRAD Level II` and `nyquist_vel != None`;
the external call omits the Nyquist keyword exactly when the tag is
`NEXRAD Level II`. -/
def dealias (r : VRadar) (nyquist_vel : Option ℚ) : DealiasTrace :=
  let allSweeps := List.range r.sweepFirstRays.length
  if r.original_container ≠ "NEXRAD Level II" ∧ nyquist_vel.isSome then
    { prefiltered := true
      sweepsUsed := goodSweeps r
      nyquistArg := some nyquist_vel }
  else if r.original_container = "NEXRAD Level II" then
    { prefiltered := false, sweepsUsed := allSweeps, nyquistArg := none }
  else
    { prefiltered := false, sweepsUsed := allSweeps,
      nyquistArg := some nyquist_vel }

theorem get?_zipWith {α β γ : Type} (f : α → β → γ) :
    ∀ (a : List α) (b : List β) (i : Nat),
      (List.zipWith f a b).get? i = (a.get? i).bind fun x => (b.get? i).map (f x) := by
  intro a
  induction a with
  | nil => intro b i; simp
  | cons x a ih =>
    intro b i
    cases b with
    | nil => simp
    | cons y b =>
      cases i with
      | zero => simp [List.zipWith]
      | succ j => simpa [List.zipWith] using ih b j

theorem length_setMaskedRow (m : List Bool) (e : List Value) :
    (setMaskedRow m e).length = min m.length e.length := by
  simp [setMaskedRow]

theorem updF_cons_self (k : String) (e : List Value)
    (t : List (String × List Value)) (d : List Value) :
    updF ((k, e) :: t) k d = (k, d) :: updF t k d := by
  simp [updF]

theorem updF_cons_ne (k f : String) (e : List Value)
    (t : List (String × List Value)) (d : List Value) (h : k ≠ f) :
    updF ((k, e) :: t) f d = (k, e) :: updF t f d := by
  simp [updF, h]

theorem fieldLookup_updF_self (l : List (String × List Value)) (f : String)
    (d : List Value) :
    fieldLookup (updF l f d) f = (fieldLookup l f).map fun _ => d := by
  induction l with
  | nil => rfl
  | cons p t ih =>
    obtain ⟨k, e⟩ := p
    by_cases h : k = f
    · subst h
      rw [updF_cons_self]
      simp [fieldLookup]
    · rw [updF_cons_ne k f e t d h]
      simp [fieldLookup, h, ih]

theorem fieldLookup_updF_ne (l : List (String × List Value)) (f g : String)
    (d : List Value) (h : g ≠ f) :
    fieldLookup (updF l f d) g = fieldLookup l g := by
  induction l with
  | nil => rfl
  | cons p t ih =>
    obtain ⟨k, e⟩ := p
    by_cases hk : k = f
    · subst hk
      rw [updF_cons_self]
      simp [fieldLookup, Ne.symm h, ih]
    · rw [updF_cons_ne k f e t d hk]
      by_cases hg : k = g
      · subst hg; simp [fieldLookup]
      · simp [fieldLookup, hg, ih]

theorem updF_updF (l : List (String × List Value)) (f : String)
    (d1 d2 : List Value) :
    updF (updF l f d1) f d2 = updF l f d2 := by
  induction l with
  | nil => rfl
  | cons p t ih =>
    obtain ⟨k, e⟩ := p
    by_cases h : k = f
    · subst h
      rw [updF_cons_self, updF_cons_self, updF_cons_self, ih]
    · rw [updF_cons_ne k f e t d1 h, updF_cons_ne k f e (updF t f d1) d2 h,
        updF_cons_ne k f e t d2 h, ih]

theorem maskField_eq_some (mask : List Bool) (f : String) (r : Radar)
    (e : List Value) (he : lookupF r f = some e) (hl : mask.length = e.length) :
    maskField mask f r =
      some { r with fields := updF r.fields f (setMaskedRow mask e) } := by
  simp [maskField, he, hl]

theorem get?_setMaskedRow (m : List Bool) (e : List Value) (i : Nat)
    (b : Bool) (v : Value) (hb : m.get? i = some b) (hv : e.get? i = some v) :
    (setMaskedRow m e).get? i = some (if b then none else v) := by
  show (List.zipWith (fun b v => if b then none else v) m e).get? i = _
  rw [get?_zipWith, hb, hv]
  rfl

theorem get?_setMaskedRowOU (over under : List Bool) (e : List Value) (i : Nat)
    (b1 b2 : Bool) (v : Value) (h1 : over.get? i = some b1)
    (h2 : under.get? i = some b2) (hv : e.get? i = some v) :
    (setMaskedRow under (setMaskedRow over e)).get? i =
      some (if b1 || b2 then none else v) := by
  have hin : (setMaskedRow over e).get? i = some (if b1 then none else v) :=
    get?_setMaskedRow over e i b1 v h1 hv
  have hout := get?_setMaskedRow under (setMaskedRow over e) i b2
    (if b1 then none else v) h2 hin
  rw [hout]
  cases b1 <;> cases b2 <;> simp

/-- Soundness of the two-mask field loop: when every listed field exists with
the shape of both masks and the list of names has no duplicates, the loop
succeeds, leaves sweep metadata and unlisted fields alone, and rewrites every
listed field by the two masked assignments. -/
theorem maskAllOU_spec (over under : List Bool) :
    ∀ (ns : List String) (r : Radar), ns.Nodup →
    (∀ n ∈ ns, ∃ e, lookupF r n = some e ∧
        e.length = over.length ∧ e.length = under.length) →
    ∃ r', maskAllOU over under ns r = some r' ∧
      r'.sweep_start_ray_index = r.sweep_start_ray_index ∧
      r'.sweep_end_ray_index = r.sweep_end_ray_index ∧
      (∀ g, g ∉ ns → lookupF r' g = lookupF r g) ∧
      (∀ n ∈ ns, ∀ e, lookupF r n = some e →
        lookupF r' n = some (setMaskedRow under (setMaskedRow over e))) := by
  intro ns
  induction ns with
  | nil =>
    intro r _ _
    exact ⟨r, rfl, rfl, rfl, fun g _ => rfl, fun n hn => absurd hn (List.not_mem_nil n)⟩
  | cons n ns ih =>
    intro r hnd hok
    obtain ⟨hn_not_mem, hnd'⟩ := List.nodup_cons.mp hnd
    obtain ⟨e, he, hlo, hlu⟩ := hok n (List.mem_cons_self n ns)
    have hm1 := maskField_eq_some over n r e he hlo.symm
    set r1 : Radar := { r with fields := updF r.fields n (setMaskedRow over e) }
      with hr1
    have hl1self : lookupF r1 n = some (setMaskedRow over e) := by
      show fieldLookup (updF r.fields n (setMaskedRow over e)) n = _
      rw [fieldLookup_updF_self]
      rw [show fieldLookup r.fields n = some e from he]
      rfl
    have hl1ne : ∀ g, g ≠ n → lookupF r1 g = lookupF r g := by
      intro g hg
      show fieldLookup (updF r.fields n (setMaskedRow over e)) g = _
      rw [fieldLookup_updF_ne _ _ _ _ hg]
      rfl
    have hlen1 : under.length = (setMaskedRow over e).length := by
      rw [length_setMaskedRow, ← hlo, ← hlu]
      simp
    have hm2 := maskField_eq_some under n r1 (setMaskedRow over e) hl1self hlen1
    set r2 : Radar :=
      { r1 with fields := updF r1.fields n (setMaskedRow under (setMaskedRow over e)) }
      with hr2
    have hl2self : lookupF r2 n = some (setMaskedRow under (setMaskedRow over e)) := by
      show fieldLookup (updF r1.fields n _) n = _
      rw [fieldLookup_updF_self]
      rw [show fieldLookup r1.fields n = some (setMaskedRow over e) from hl1self]
      rfl
    have hl2ne : ∀ g, g ≠ n → lookupF r2 g = lookupF r g := by
      intro g hg
      show fieldLookup (updF r1.fields n _) g = _
      rw [fieldLookup_updF_ne _ _ _ _ hg]
      exact hl1ne g hg
    have hok2 : ∀ m ∈ ns, ∃ e', lookupF r2 m = some e' ∧
        e'.length = over.length ∧ e'.length = under.length := by
      intro m hm
      obtain ⟨e', he', h1, h2⟩ := hok m (List.mem_cons_of_mem n hm)
      have hmn : m ≠ n := fun hEq => hn_not_mem (hEq ▸ hm)
      exact ⟨e', (hl2ne m hmn).trans he', h1, h2⟩
    obtain ⟨r', hrun, hs1, hs2, hne, hmem⟩ := ih r2 hnd' hok2
    refine ⟨r', ?_, ?_, ?_, ?_, ?_⟩
    · simp [maskAllOU, hm1, hm2, ← hr2, hrun]
    · exact hs1.trans rfl
    · exact hs2.trans rfl
    · intro g hg
      have hg1 : g ≠ n := fun hEq => hg (hEq ▸ List.mem_cons_self n ns)
      have hg2 : g ∉ ns := fun hmm => hg (List.mem_cons_of_mem n hmm)
      exact (hne g hg2).trans (hl2ne g hg1)
    · intro m hm e' he'
      rcases List.mem_cons.mp hm with hEq | htail
      · subst hEq
        have : e' = e := by
          have := he.symm.trans he'
          exact (Option.some.injEq _ _ ▸ this).symm
        subst this
        exact (hne m hn_not_mem).trans hl2self
      · have hmn : m ≠ n := fun hEq => hn_not_mem (hEq ▸ htail)
        exact hmem m htail e' ((hl2ne m hmn).trans he')

/-- Soundness of the single-mask field loop, in the same shape as
`maskAllOU_spec`. -/
theorem maskAll1_spec (mask : List Bool) :
    ∀ (ns : List String) (r : Radar), ns.Nodup →
    (∀ n ∈ ns, ∃ e, lookupF r n = some e ∧ e.length = mask.length) →
    ∃ r', maskAll1 mask ns r = some r' ∧
      r'.sweep_start_ray_index = r.sweep_start_ray_index ∧
      r'.sweep_end_ray_index = r.sweep_end_ray_index ∧
      (∀ g, g ∉ ns → lookupF r' g = lookupF r g) ∧
      (∀ n ∈ ns, ∀ e, lookupF r n = some e →
        lookupF r' n = some (setMaskedRow mask e)) := by
  intro ns
  induction ns with
  | nil =>
    intro r _ _
    exact ⟨r, rfl, rfl, rfl, fun g _ => rfl, fun n hn => absurd hn (List.not_mem_nil n)⟩
  | cons n ns ih =>
    intro r hnd hok
    obtain ⟨hn_not_mem, hnd'⟩ := List.nodup_cons.mp hnd
    obtain ⟨e, he, hlo⟩ := hok n (List.mem_cons_self n ns)
    have hm1 := maskField_eq_some mask n r e he hlo.symm
    set r1 : Radar := { r with fields := updF r.fields n (setMaskedRow mask e) }
      with hr1
    have hl1self : lookupF r1 n = some (setMaskedRow mask e) := by
      show fieldLookup (updF r.fields n (setMaskedRow mask e)) n = _
      rw [fieldLookup_updF_self]
      rw [show fieldLookup r.fields n = some e from he]
      rfl
    have hl1ne : ∀ g, g ≠ n → lookupF r1 g = lookupF r g := by
      intro g hg
      show fieldLookup (updF r.fields n (setMaskedRow mask e)) g = _
      rw [fieldLookup_updF_ne _ _ _ _ hg]
      rfl
    have hok1 : ∀ m ∈ ns, ∃ e', lookupF r1 m = some e' ∧ e'.length = mask.length := by
      intro m hm
      obtain ⟨e', he', h1⟩ := hok m (List.mem_cons_of_mem n hm)
      have hmn : m ≠ n := fun hEq => hn_not_mem (hEq ▸ hm)
      exact ⟨e', (hl1ne m hmn).trans he', h1⟩
    obtain ⟨r', hrun, hs1, hs2, hne, hmem⟩ := ih r1 hnd' hok1
    refine ⟨r', ?_, ?_, ?_, ?_, ?_⟩
    · simp [maskAll1, hm1, ← hr1, hrun]
    · exact hs1.trans rfl
    · exact hs2.trans rfl
    · intro g hg
      have hg1 : g ≠ n := fun hEq => hg (hEq ▸ List.mem_cons_self n ns)
      have hg2 : g ∉ ns := fun hmm => hg (List.mem_cons_of_mem n hmm)
      exact (hne g hg2).trans (hl1ne g hg1)
    · intro m hm e' he'
      rcases List.mem_cons.mp hm with hEq | htail
      · subst hEq
        have : e' = e := by
          have := he.symm.trans he'
          exact (Option.some.injEq _ _ ▸ this).symm
        subst this
        exact (hne m hn_not_mem).trans hl1self
      · have hmn : m ≠ n := fun hEq => hn_not_mem (hEq ▸ htail)
        exact hmem m htail e' ((hl1ne m hmn).trans he')

/-- All listed field names exist in the volume with the given shape. -/
def FieldsOK (r : Radar) (ns : List String) (len : Nat) : Prop :=
  ∀ n ∈ ns, ∃ e, lookupF r n = some e ∧ e.length = len

/-- Outcome shape asserted by the spec for a bounded noise filter driven by
data `d`: gates whose driver value lies inside the closed interval [lo, hi]
are unchanged in every listed field, gates whose driver value lies outside
become the missing sentinel. -/
def NoiseOutcome (res : Option Radar) (r : Radar) (ns : List String)
    (d : List Value) (lo hi : ℚ) : Prop :=
  ∃ r', res = some r' ∧ ∀ n ∈ ns, ∀ i x, d.get? i = some (some x) →
    ((lo ≤ x ∧ x ≤ hi) → gateVal r' n i = gateVal r n i) ∧
    ((x < lo ∨ hi < x) → gateVal r' n i = some none)

/-- Outcome of `removeNoiseSNR`: only driver values strictly inside the
bounds are kept; values at or beyond either bound are set to missing. -/
def NoiseOutcomeStrict (res : Option Radar) (r : Radar) (ns : List String)
    (d : List Value) (lo hi : ℚ) : Prop :=
  ∃ r', res = some r' ∧ ∀ n ∈ ns, ∀ i x, d.get? i = some (some x) →
    ((lo < x ∧ x < hi) → gateVal r' n i = gateVal r n i) ∧
    ((x ≤ lo ∨ hi ≤ x) → gateVal r' n i = some none)

/-- Outcome of the `removeNoiseZ` vendor fallback path: the over check reads
`DBZH` data `dh` and the under check reads `DBZV` data `dv`. -/
def NoiseOutcome2 (res : Option Radar) (r : Radar) (ns : List String)
    (dh dv : List Value) (lo hi : ℚ) : Prop :=
  ∃ r', res = some r' ∧ ∀ n ∈ ns, ∀ i x y v, dh.get? i = some x →
    dv.get? i = some y → gateVal r n i = some v →
    gateVal r' n i = some (if vGT x hi || vLT y lo then none else v)

theorem gateVal_of_lookup (r : Radar) (n : String) (i : Nat) (e : List Value)
    (he : lookupF r n = some e) : gateVal r n i = e.get? i := by
  simp [gateVal, he]

theorem noiseOU2_outcome (dh dv : List Value) (lo hi : ℚ) (ns : List String)
    (r : Radar) (hnd : ns.Nodup)
    (hok : ∀ n ∈ ns, ∃ e, lookupF r n = some e ∧
        e.length = dh.length ∧ e.length = dv.length) :
    NoiseOutcome2
      (maskAllOU (dh.map (vGT · hi)) (dv.map (vLT · lo)) ns r) r ns dh dv lo hi := by
  obtain ⟨r', hrun, _, _, _, hmem⟩ :=
    maskAllOU_spec (dh.map (vGT · hi)) (dv.map (vLT · lo)) ns r hnd (by
      intro n hn
      obtain ⟨e, he, h1, h2⟩ := hok n hn
      exact ⟨e, he, by simpa using h1, by simpa using h2⟩)
  refine ⟨r', hrun, ?_⟩
  intro n hn i x y v hx hy hv
  obtain ⟨e, he, h1, h2⟩ := hok n hn
  have hve : e.get? i = some v := by rw [← gateVal_of_lookup r n i e he]; exact hv
  have hover : (dh.map (vGT · hi)).get? i = some (vGT x hi) := by
    rw [List.get?_map, hx]; rfl
  have hunder : (dv.map (vLT · lo)).get? i = some (vLT y lo) := by
    rw [List.get?_map, hy]; rfl
  have hgate := get?_setMaskedRowOU (dh.map (vGT · hi)) (dv.map (vLT · lo))
    e i (vGT x hi) (vLT y lo) v hover hunder hve
  rw [gateVal_of_lookup r' n i _ (hmem n hn e he), hgate]

theorem noiseOU_outcome (d : List Value) (lo hi : ℚ) (ns : List String)
    (r : Radar) (hnd : ns.Nodup) (hok : FieldsOK r ns d.length) :
    NoiseOutcome (noiseOU d lo hi ns r) r ns d lo hi := by
  obtain ⟨r', hrun, hmem⟩ := noiseOU2_outcome d d lo hi ns r hnd (by
    intro n hn
    obtain ⟨e, he, h1⟩ := hok n hn
    exact ⟨e, he, h1, h1⟩)
  refine ⟨r', hrun, ?_⟩
  intro n hn i x hdi
  obtain ⟨e, he, hl⟩ := hok n hn
  have hid : i < d.length := List.get?_eq_some.mp hdi |>.choose
  have hie : i < e.length := hl ▸ hid
  have hv : e.get? i = some (e.get ⟨i, hie⟩) := List.get?_eq_get hie
  have hgv : gateVal r n i = some (e.get ⟨i, hie⟩) :=
    (gateVal_of_lookup r n i e he).trans hv
  have hres := hmem n hn i (some x) (some x) (e.get ⟨i, hie⟩) hdi hdi hgv
  constructor
  · rintro ⟨hx1, hx2⟩
    have hb1 : vGT (some x) hi = false := by
      simp [vGT]; exact hx2
    have hb2 : vLT (some x) lo = false := by
      simp [vLT]; exact hx1
    rw [hres, hgv, hb1, hb2]
    rfl
  · intro hout
    have hb : (vGT (some x) hi || vLT (some x) lo) = true := by
      rcases hout with h | h
      · have : vLT (some x) lo = true := by simp [vLT, h]
        simp [this]
      · have : vGT (some x) hi = true := by simp [vGT, h]
        simp [this]
    rw [hres, hb]
    rfl

theorem snr_outcome (d : List Value) (lo hi : ℚ) (ns : List String)
    (r : Radar) (hnd : ns.Nodup) (hok : FieldsOK r ns d.length) :
    NoiseOutcomeStrict
      (maskAll1 ((d.map fun v => vLT v hi && vGT v lo).map fun b => !b) ns r)
      r ns d lo hi := by
  set mask := (d.map fun v => vLT v hi && vGT v lo).map fun b => !b with hmask
  obtain ⟨r', hrun, _, _, _, hmem⟩ := maskAll1_spec mask ns r hnd (by
    intro n hn
    obtain ⟨e, he, h1⟩ := hok n hn
    exact ⟨e, he, by simp [hmask, h1]⟩)
  refine ⟨r', hrun, ?_⟩
  intro n hn i x hdi
  obtain ⟨e, he, hl⟩ := hok n hn
  have hid : i < d.length := List.get?_eq_some.mp hdi |>.choose
  have hie : i < e.length := hl ▸ hid
  have hv : e.get? i = some (e.get ⟨i, hie⟩) := List.get?_eq_get hie
  have hb : mask.get? i = some (!(vLT (some x) hi && vGT (some x) lo)) := by
    rw [hmask, List.get?_map, List.get?_map, hdi]; rfl
  have hgate := get?_setMaskedRow mask e i _ _ hb hv
  have hgv' : gateVal r' n i =
      some (if !(vLT (some x) hi && vGT (some x) lo) then none
            else e.get ⟨i, hie⟩) :=
    (gateVal_of_lookup r' n i _ (hmem n hn e he)).trans hgate
  have hgv : gateVal r n i = some (e.get ⟨i, hie⟩) :=
    (gateVal_of_lookup r n i e he).trans hv
  constructor
  · rintro ⟨hx1, hx2⟩
    have hin : (vLT (some x) hi && vGT (some x) lo) = true := by
      simp [vLT, vGT, hx1, hx2]
    rw [hgv', hgv, hin]
    rfl
  · intro hout
    have hno : (vLT (some x) hi && vGT (some x) lo) = false := by
      rcases hout with h | h
      · have : vGT (some x) lo = false := by simp [vGT, not_lt.mpr h]
        simp [this]
      · have : vLT (some x) hi = false := by simp [vLT, not_lt.mpr h]
        simp [this]
    rw [hgv', hno]
    rfl

/-- Claim C2: for `set2range` with bounds val_min ≤ val_max, every gate value v of
the named field becomes val_min if v < val_min, val_max if v > val_max, and
stays v otherwise. -/
theorem c2_set2range_clamp (r : Radar) (f : String) (vmax vmin : ℚ)
    (d : List Value) (hb : vmin ≤ vmax) (hd : lookupF r f = some d) :
    ∃ r', set2range r f vmax vmin = some r' ∧
      ∀ i x, d.get? i = some (some x) →
        (x < vmin → gateVal r' f i = some (some vmin)) ∧
        (vmax < x → gateVal r' f i = some (some vmax)) ∧
        (vmin ≤ x → x ≤ vmax → gateVal r' f i = some (some x)) := by
  refine ⟨{ r with fields := updF r.fields f (d.map (clampV vmin vmax)) }, ?_, ?_⟩
  · simp [set2range, hd]
  · intro i x hdi
    have hgv : gateVal
        { r with fields := updF r.fields f (d.map (clampV vmin vmax)) } f i =
        (d.map (clampV vmin vmax)).get? i := by
      apply gateVal_of_lookup
      show fieldLookup (updF r.fields f _) f = _
      rw [fieldLookup_updF_self,
        show fieldLookup r.fields f = some d from hd]
      rfl
    have hmap : (d.map (clampV vmin vmax)).get? i =
        some (clampV vmin vmax (some x)) := by
      rw [List.get?_map, hdi]
      rfl
    refine ⟨?_, ?_, ?_⟩
    · intro h
      rw [hgv, hmap]
      simp [clampV, h]
    · intro h
      have h1 : ¬ x < vmin := not_lt.mpr (le_trans hb (le_of_lt h))
      rw [hgv, hmap]
      simp [clampV, h1, h]
    · intro h1 h2
      rw [hgv, hmap]
      simp [clampV, not_lt.mpr h1, not_lt.mpr h2]

/-- Witness for C2 at a concrete volume: bounds [-8, 16] on field DBZ with
values -10, 30, 5. -/
theorem c2_set2range_clamp_witness :
    ∃ r', set2range ⟨[("DBZ", [some (-10), some 30, some 5])], [], []⟩
        "DBZ" 16 (-8) = some r' ∧
      ∀ i x, [some (-10 : ℚ), some 30, some 5].get? i = some (some x) →
        (x < -8 → gateVal r' "DBZ" i = some (some (-8))) ∧
        (16 < x → gateVal r' "DBZ" i = some (some 16)) ∧
        (-8 ≤ x → x ≤ 16 → gateVal r' "DBZ" i = some (some x)) :=
  c2_set2range_clamp ⟨[("DBZ", [some (-10), some 30, some 5])], [], []⟩
    "DBZ" 16 (-8) [some (-10), some 30, some 5] (by norm_num) rfl

/-- Claim C7: `fix_CHILL_PPI_sweep_start_end` writes exactly the six hardcoded
start and end indices whatever the input was, and leaves the field arrays
untouched. -/
theorem c7_fix_chill_sweeps (r : Radar) :
    (fix_CHILL_PPI_sweep_start_end r).sweep_start_ray_index =
      [0, 382, 789, 1208, 1604, 2027] ∧
    (fix_CHILL_PPI_sweep_start_end r).sweep_end_ray_index =
      [381, 788, 1176, 1567, 1993, 2428] ∧
    (fix_CHILL_PPI_sweep_start_end r).fields = r.fields :=
  ⟨rfl, rfl, rfl⟩

/-- Claim C8: with bounds val_min ≤ val_max, applying `set2range` twice with the
same arguments gives the same result as applying it once. -/
theorem c8_set2range_idempotent (r : Radar) (f : String) (vmax vmin : ℚ)
    (hb : vmin ≤ vmax) :
    (set2range r f vmax vmin).bind (fun r2 => set2range r2 f vmax vmin) =
      set2range r f vmax vmin := by
  cases hd : lookupF r f with
  | none => simp [set2range, hd]
  | some d =>
    have hl1 : lookupF
        { r with fields := updF r.fields f (d.map (clampV vmin vmax)) } f =
        some (d.map (clampV vmin vmax)) := by
      show fieldLookup (updF r.fields f _) f = _
      rw [fieldLookup_updF_self,
        show fieldLookup r.fields f = some d from hd]
      rfl
    have hidem : ∀ v, clampV vmin vmax (clampV vmin vmax v) = clampV vmin vmax v := by
      intro v
      cases v with
      | none => rfl
      | some x =>
        by_cases h1 : x < vmin
        · simp [clampV, h1, lt_irrefl, not_lt.mpr hb]
        · by_cases h2 : vmax < x
          · simp [clampV, h1, h2, lt_irrefl, not_lt.mpr hb]
          · simp [clampV, h1, h2]
    have hmm : (d.map (clampV vmin vmax)).map (clampV vmin vmax) =
        d.map (clampV vmin vmax) := by
      rw [List.map_map]
      exact List.map_congr_left fun a _ => hidem a
    simp [set2range, hd, hl1, updF_updF, hmm]

/-- Witness for C8 at a concrete volume with bounds [-8, 16]. -/
theorem c8_set2range_idempotent_witness :
    (set2range ⟨[("DBZ", [some (-10), some 30, some 5, none])], [], []⟩
        "DBZ" 16 (-8)).bind
      (fun r2 => set2range r2 "DBZ" 16 (-8)) =
    set2range ⟨[("DBZ", [some (-10), some 30, some 5, none])], [], []⟩
      "DBZ" 16 (-8) :=
  c8_set2range_idempotent ⟨[("DBZ", [some (-10), some 30, some 5, none])], [], []⟩
    "DBZ" 16 (-8) (by norm_num)

/-- Counterexample for C1: for `removeNoiseSNR` with bounds [5, 10], a gate whose
snr value is exactly 5 lies within the bounds, yet the filter sets it to the
missing sentinel (the source keeps only the open interval
`snr_min < snr < snr_max`). -/
theorem c1_snr_boundary_counterexample :
    (5 : ℚ) ≥ 5 ∧ (5 : ℚ) ≤ 10 ∧
    lookupF ⟨[("snr", [some 5])], [], []⟩ "snr" = some [some 5] ∧
    removeNoiseSNR ⟨[("snr", [some 5])], [], []⟩ ["snr"] 5 10 =
      some ⟨[("snr", [none])], [], []⟩ := by
  refine ⟨by norm_num, by norm_num, rfl, ?_⟩
  decide

/-- Claim C1 as amended: the five filters removeNoiseZ (driven by `reflectivity`),
removeNoiseZdr, removeNoiseRhoHV (driven by `cross_correlation_ratio`),
removeNoisePhiDP (driven by `PHIDP`) and removeNoiseNCP keep every gate whose
driver value lies in the closed interval [min, max] and set the sentinel on
every gate whose driver value lies outside; removeNoiseSNR instead keeps only
the open interval (min, max), setting the sentinel on gates whose snr value
equals either bound as well. -/
theorem c1_noise_filters_amended :
    (∀ (r : Radar) (ns : List String) (lo hi : ℚ) (d : List Value),
      lookupF r "reflectivity" = some d → ns.Nodup → FieldsOK r ns d.length →
      NoiseOutcome (removeNoiseZ r ns lo hi) r ns d lo hi) ∧
    (∀ (r : Radar) (ns : List String) (lo hi : ℚ) (d : List Value),
      lookupF r "differential_reflectivity" = some d → ns.Nodup →
      FieldsOK r ns d.length →
      NoiseOutcome (removeNoiseZdr r ns lo hi) r ns d lo hi) ∧
    (∀ (r : Radar) (ns : List String) (lo hi : ℚ) (d : List Value),
      lookupF r "cross_correlation_ratio" = some d → ns.Nodup →
      FieldsOK r ns d.length →
      NoiseOutcome (removeNoiseRhoHV r ns lo hi) r ns d lo hi) ∧
    (∀ (r : Radar) (ns : List String) (lo hi : ℚ) (d : List Value),
      lookupF r "PHIDP" = some d → ns.Nodup → FieldsOK r ns d.length →
      NoiseOutcome (removeNoisePhiDP r ns lo hi) r ns d lo hi) ∧
    (∀ (r : Radar) (ns : List String) (lo hi : ℚ) (d : List Value),
      lookupF r "normalized_coherent_power" = some d → ns.Nodup →
      FieldsOK r ns d.length →
      NoiseOutcome (removeNoiseNCP r ns lo hi) r ns d lo hi) ∧
    (∀ (r : Radar) (ns : List String) (lo hi : ℚ) (d : List Value),
      lookupF r "snr" = some d → ns.Nodup → FieldsOK r ns d.length →
      NoiseOutcomeStrict (removeNoiseSNR r ns lo hi) r ns d lo hi) := by
  refine ⟨?_, ?_, ?_, ?_, ?_, ?_⟩
  · intro r ns lo hi d hdrv hnd hok
    have h : removeNoiseZ r ns lo hi = noiseOU d lo hi ns r := by
      simp [removeNoiseZ, hdrv]
    rw [h]
    exact noiseOU_outcome d lo hi ns r hnd hok
  · intro r ns lo hi d hdrv hnd hok
    have h : removeNoiseZdr r ns lo hi = noiseOU d lo hi ns r := by
      simp [removeNoiseZdr, hdrv]
    rw [h]
    exact noiseOU_outcome d lo hi ns r hnd hok
  · intro r ns lo hi d hdrv hnd hok
    have h : removeNoiseRhoHV r ns lo hi = noiseOU d lo hi ns r := by
      simp [removeNoiseRhoHV, hdrv]
    rw [h]
    exact noiseOU_outcome d lo hi ns r hnd hok
  · intro r ns lo hi d hdrv hnd hok
    have h : removeNoisePhiDP r ns lo hi = noiseOU d lo hi ns r := by
      simp [removeNoisePhiDP, hdrv]
    rw [h]
    exact noiseOU_outcome d lo hi ns r hnd hok
  · intro r ns lo hi d hdrv hnd hok
    have h : removeNoiseNCP r ns lo hi = noiseOU d lo hi ns r := by
      simp [removeNoiseNCP, hdrv]
    rw [h]
    exact noiseOU_outcome d lo hi ns r hnd hok
  · intro r ns lo hi d hdrv hnd hok
    have h : removeNoiseSNR r ns lo hi =
        maskAll1 ((d.map fun v => vLT v hi && vGT v lo).map fun b => !b) ns r := by
      simp [removeNoiseSNR, hdrv]
    rw [h]
    exact snr_outcome d lo hi ns r hnd hok

/-- Concrete volume carrying every driver field, used to witness C1. -/
def c1rad : Radar :=
  ⟨[("reflectivity", [some 1]), ("differential_reflectivity", [some 1]),
    ("cross_correlation_ratio", [some 1]), ("PHIDP", [some 1]),
    ("normalized_coherent_power", [some 1]), ("snr", [some 1]),
    ("x", [some 7])], [], []⟩

/-- Witness for C1 (amended), instantiating all six filter clauses on
`c1rad` with bounds [0, 10] and field list ["x"]. -/
theorem c1_noise_filters_amended_witness :
    NoiseOutcome (removeNoiseZ c1rad ["x"] 0 10) c1rad ["x"] [some 1] 0 10 ∧
    NoiseOutcome (removeNoiseZdr c1rad ["x"] 0 10) c1rad ["x"] [some 1] 0 10 ∧
    NoiseOutcome (removeNoiseRhoHV c1rad ["x"] 0 10) c1rad ["x"] [some 1] 0 10 ∧
    NoiseOutcome (removeNoisePhiDP c1rad ["x"] 0 10) c1rad ["x"] [some 1] 0 10 ∧
    NoiseOutcome (removeNoiseNCP c1rad ["x"] 0 10) c1rad ["x"] [some 1] 0 10 ∧
    NoiseOutcomeStrict (removeNoiseSNR c1rad ["x"] 0 10) c1rad ["x"] [some 1] 0 10 := by
  have hok : FieldsOK c1rad ["x"] ([some (1 : ℚ)].length) := by
    intro n hn
    rw [List.mem_singleton] at hn
    subst hn
    exact ⟨[some 7], rfl, rfl⟩
  refine ⟨c1_noise_filters_amended.1 c1rad ["x"] 0 10 [some 1] rfl (by decide) hok,
    c1_noise_filters_amended.2.1 c1rad ["x"] 0 10 [some 1] rfl (by decide) hok,
    c1_noise_filters_amended.2.2.1 c1rad ["x"] 0 10 [some 1] rfl (by decide) hok,
    c1_noise_filters_amended.2.2.2.1 c1rad ["x"] 0 10 [some 1] rfl (by decide) hok,
    c1_noise_filters_amended.2.2.2.2.1 c1rad ["x"] 0 10 [some 1] rfl (by decide) hok,
    c1_noise_filters_amended.2.2.2.2.2 c1rad ["x"] 0 10 [some 1] rfl (by decide) hok⟩

/-- Definition following the spec words for C3, to be compared with the
source: a reflectivity noise filter whose mask reads one single named field
and compares that same per-gate quantity against both bounds. -/
def specSingleFieldNoiseZ (r : Radar) (ns : List String) (zmin zmax : ℚ)
    (driver : String) : Option Radar :=
  match lookupF r driver with
  | none => none
  | some d => noiseOU d zmin zmax ns r

/-- Volume exhibiting the C3 divergence: no `reflectivity` field, and `DBZH`
and `DBZV` disagree per gate. -/
def c3rad : Radar :=
  ⟨[("DBZH", [some 60, some 10]), ("DBZV", [some 10, some (-5)])], [], []⟩

/-- Counterexample for C3: with bounds [0, 50] on `c3rad`, the fallback path of
`removeNoiseZ` masks gate 0 from `DBZH` (60 > 50) and gate 1 from `DBZV`
(-5 < 0); no single driving field (`reflectivity`, `DBZH` or `DBZV`)
compared against both bounds produces this result. -/
theorem c3_fallback_counterexample :
    lookupF c3rad "reflectivity" = none ∧
    removeNoiseZ c3rad ["DBZH"] 0 50 ≠
      specSingleFieldNoiseZ c3rad ["DBZH"] 0 50 "DBZH" ∧
    removeNoiseZ c3rad ["DBZH"] 0 50 ≠
      specSingleFieldNoiseZ c3rad ["DBZH"] 0 50 "DBZV" ∧
    removeNoiseZ c3rad ["DBZH"] 0 50 ≠
      specSingleFieldNoiseZ c3rad ["DBZH"] 0 50 "reflectivity" := by
  exact ⟨rfl, by decide, by decide, by decide⟩

/-- Claim C3 as amended: when `reflectivity` exists the mask compares that single
field against both bounds; when it is missing the over-bound check reads
`DBZH` and the under-bound check reads `DBZV`, so a gate is masked exactly
when its DBZH value exceeds Z_max or its DBZV value is below Z_min. -/
theorem c3_removeNoiseZ_amended :
    (∀ (r : Radar) (ns : List String) (lo hi : ℚ) (d : List Value),
      lookupF r "reflectivity" = some d → ns.Nodup → FieldsOK r ns d.length →
      NoiseOutcome (removeNoiseZ r ns lo hi) r ns d lo hi) ∧
    (∀ (r : Radar) (ns : List String) (lo hi : ℚ) (dh dv : List Value),
      lookupF r "reflectivity" = none → lookupF r "DBZH" = some dh →
      lookupF r "DBZV" = some dv → ns.Nodup →
      (∀ n ∈ ns, ∃ e, lookupF r n = some e ∧
        e.length = dh.length ∧ e.length = dv.length) →
      NoiseOutcome2 (removeNoiseZ r ns lo hi) r ns dh dv lo hi) := by
  constructor
  · intro r ns lo hi d hdrv hnd hok
    have h : removeNoiseZ r ns lo hi = noiseOU d lo hi ns r := by
      simp [removeNoiseZ, hdrv]
    rw [h]
    exact noiseOU_outcome d lo hi ns r hnd hok
  · intro r ns lo hi dh dv hno hdh hdv hnd hok
    have h : removeNoiseZ r ns lo hi =
        maskAllOU (dh.map (vGT · hi)) (dv.map (vLT · lo)) ns r := by
      simp [removeNoiseZ, hno, hdh, hdv]
    rw [h]
    exact noiseOU2_outcome dh dv lo hi ns r hnd hok

/-- Witness for C3 (amended): the primary clause on a volume containing
`reflectivity`, and the fallback clause on `c3rad`. -/
theorem c3_removeNoiseZ_amended_witness :
    NoiseOutcome
      (removeNoiseZ ⟨[("reflectivity", [some 1]), ("x", [some 7])], [], []⟩
        ["x"] 0 10)
      ⟨[("reflectivity", [some 1]), ("x", [some 7])], [], []⟩
      ["x"] [some 1] 0 10 ∧
    NoiseOutcome2 (removeNoiseZ c3rad ["DBZH"] 0 50) c3rad ["DBZH"]
      [some 60, some 10] [some 10, some (-5)] 0 50 := by
  constructor
  · exact c3_removeNoiseZ_amended.1
      ⟨[("reflectivity", [some 1]), ("x", [some 7])], [], []⟩
      ["x"] 0 10 [some 1] rfl (by decide)
      (by
        intro n hn
        rw [List.mem_singleton] at hn
        subst hn
        exact ⟨[some 7], rfl, rfl⟩)
  · exact c3_removeNoiseZ_amended.2 c3rad ["DBZH"] 0 50
      [some 60, some 10] [some 10, some (-5)] rfl rfl rfl (by decide)
      (by
        intro n hn
        rw [List.mem_singleton] at hn
        subst hn
        exact ⟨[some 60, some 10], rfl, rfl, rfl⟩)

/-- Claim C4: `removeMountainClutter` masks, in every listed field, exactly the
gates whose dealiased velocity v satisfies |v| < 0.2 (= 1/5) and whose
reflectivity strictly exceeds 25, leaving every other gate unchanged. -/
theorem c4_mountain_clutter (r : Radar) (ns : List String) (v z : List Value)
    (hv : lookupF r "dealiased_velocity" = some v)
    (hz : lookupF r "reflectivity" = some z)
    (hvz : v.length = z.length) (hnd : ns.Nodup)
    (hok : FieldsOK r ns v.length) :
    ∃ r', removeMountainClutter r ns = some r' ∧
      (∀ n ∈ ns, ∀ i a b c, v.get? i = some a → z.get? i = some b →
        gateVal r n i = some c →
        gateVal r' n i =
          some (if (vLT a (1/5) && vGT a (-(1/5))) && vGT b 25 then none else c)) ∧
      (∀ a b : Value,
        ((vLT a (1/5) && vGT a (-(1/5))) && vGT b 25) = true ↔
        ∃ x y : ℚ, a = some x ∧ b = some y ∧ |x| < 1/5 ∧ 25 < y) := by
  have hguard2 : (List.zipWith (fun a b => a && b)
      (v.map (vLT · (1/5))) (v.map (vGT · (-(1/5))))).length =
      (z.map (vGT · 25)).length := by
    simp [hvz]
  have hrun : removeMountainClutter r ns =
      maskAll1 (List.zipWith (fun a b => a && b)
        (List.zipWith (fun a b => a && b)
          (v.map (vLT · (1/5))) (v.map (vGT · (-(1/5)))))
        (z.map (vGT · 25))) ns r := by
    simp only [removeMountainClutter, hv, hz]
    exact if_pos hguard2
  set mask := List.zipWith (fun a b => a && b)
    (List.zipWith (fun a b => a && b)
      (v.map (vLT · (1/5))) (v.map (vGT · (-(1/5)))))
    (z.map (vGT · 25)) with hmsk
  have hlmask : mask.length = v.length := by
    simp only [hmsk, List.length_zipWith, List.length_map]
    omega
  obtain ⟨r', hres, _, _, _, hmem⟩ := maskAll1_spec mask ns r hnd (by
    intro n hn
    obtain ⟨e, he, hl⟩ := hok n hn
    exact ⟨e, he, by rw [hl, hlmask]⟩)
  refine ⟨r', hrun.trans hres, ?_, ?_⟩
  · intro n hn i a b c ha hb hc
    obtain ⟨e, he, hl⟩ := hok n hn
    have hce : e.get? i = some c := by
      rw [← gateVal_of_lookup r n i e he]; exact hc
    have hmi : mask.get? i =
        some ((vLT a (1/5) && vGT a (-(1/5))) && vGT b 25) := by
      rw [hmsk, get?_zipWith, get?_zipWith,
        List.get?_map, List.get?_map, List.get?_map, ha, hb]
      rfl
    have hgate := get?_setMaskedRow mask e i _ c hmi hce
    rw [gateVal_of_lookup r' n i _ (hmem n hn e he), hgate]
  · intro a b
    cases a <;> cases b <;> (simp [vLT, vGT, abs_lt]; try tauto)

/-- Witness for C4 on a three-gate volume: gate 0 is mountain clutter
(v = 0.1, Z = 30), gate 1 is fast (v = 3), gate 2 has missing velocity. -/
theorem c4_mountain_clutter_witness :
    ∃ r', removeMountainClutter
        ⟨[("dealiased_velocity", [some (1/10), some 3, none]),
          ("reflectivity", [some 30, some 30, some 30])], [], []⟩
        ["reflectivity"] = some r' ∧
      (∀ n ∈ ["reflectivity"], ∀ i a b c,
        [some ((1 : ℚ)/10), some 3, none].get? i = some a →
        [some (30 : ℚ), some 30, some 30].get? i = some b →
        gateVal ⟨[("dealiased_velocity", [some (1/10), some 3, none]),
          ("reflectivity", [some 30, some 30, some 30])], [], []⟩ n i = some c →
        gateVal r' n i =
          some (if (vLT a (1/5) && vGT a (-(1/5))) && vGT b 25 then none else c)) ∧
      (∀ a b : Value,
        ((vLT a (1/5) && vGT a (-(1/5))) && vGT b 25) = true ↔
        ∃ x y : ℚ, a = some x ∧ b = some y ∧ |x| < 1/5 ∧ 25 < y) :=
  c4_mountain_clutter
    ⟨[("dealiased_velocity", [some (1/10), some 3, none]),
      ("reflectivity", [some 30, some 30, some 30])], [], []⟩
    ["reflectivity"] [some (1/10), some 3, none] [some 30, some 30, some 30]
    rfl rfl rfl (by decide)
    (by
      intro n hn
      rw [List.mem_singleton] at hn
      subst hn
      exact ⟨[some 30, some 30, some 30], rfl, rfl⟩)

/-- Counterexample for C5: with a non-NEXRAD container tag but no Nyquist
velocity supplied (`nyquist_vel = None`), `dealias` performs no sweep
pre-filtering — the empty sweep 0 is kept — although the claim asserts that
pre-filtering happens whenever the tag is not `NEXRAD Level II`. -/
theorem c5_prefilter_counterexample :
    ("CHILL" : String) ≠ "NEXRAD Level II" ∧
    goodSweeps ⟨"CHILL", [[], [some 1]]⟩ = [1] ∧
    dealias ⟨"CHILL", [[], [some 1]]⟩ none =
      { prefiltered := false, sweepsUsed := [0, 1], nyquistArg := some none } := by
  refine ⟨by decide, by decide, by decide⟩

/-- Claim C5 as amended: when the container tag is not `NEXRAD Level II` the
Nyquist keyword is always passed explicitly with the caller's value, and the
empty-sweep pre-filter runs exactly when that value is non-None, keeping the
sweeps whose first ray contains data; when the tag is `NEXRAD Level II`
there is no pre-filtering and the Nyquist keyword is omitted so the library
infers per-sweep values. -/
theorem c5_dealias_amended (r : VRadar) (nv : Option ℚ) :
    (r.original_container ≠ "NEXRAD Level II" →
      (dealias r nv).nyquistArg = some nv ∧
      (nv.isSome = true → (dealias r nv).prefiltered = true ∧
        (dealias r nv).sweepsUsed = goodSweeps r) ∧
      (nv = none → (dealias r nv).prefiltered = false ∧
        (dealias r nv).sweepsUsed = List.range r.sweepFirstRays.length)) ∧
    (r.original_container = "NEXRAD Level II" →
      (dealias r nv).prefiltered = false ∧
      (dealias r nv).nyquistArg = none ∧
      (dealias r nv).sweepsUsed = List.range r.sweepFirstRays.length) ∧
    (∀ i, i ∈ goodSweeps r ↔ i < r.sweepFirstRays.length ∧
      ((r.sweepFirstRays.getD i []).any fun v => v.isSome) = true) := by
  refine ⟨?_, ?_, ?_⟩
  · intro hne
    cases nv with
    | none => simp [dealias, hne]
    | some a => simp [dealias, hne]
  · intro heq
    simp [dealias, heq]
  · intro i
    simp [goodSweeps, List.mem_filter, List.mem_range]

/-- Witness for C5 (amended) on concrete volumes: a CHILL volume with an
explicit Nyquist velocity (pre-filter runs, value passed through) and a
NEXRAD volume (no pre-filter, keyword omitted). -/
theorem c5_dealias_amended_witness :
    (dealias ⟨"CHILL", [[], [some 1]]⟩ (some 3)).prefiltered = true ∧
    (dealias ⟨"CHILL", [[], [some 1]]⟩ (some 3)).sweepsUsed =
      goodSweeps ⟨"CHILL", [[], [some 1]]⟩ ∧
    (dealias ⟨"CHILL", [[], [some 1]]⟩ (some 3)).nyquistArg = some (some 3) ∧
    (dealias ⟨"NEXRAD Level II", [[]]⟩ (some 3)).prefiltered = false ∧
    (dealias ⟨"NEXRAD Level II", [[]]⟩ (some 3)).nyquistArg = none := by
  obtain ⟨ha, -, -⟩ := c5_dealias_amended ⟨"CHILL", [[], [some 1]]⟩ (some 3)
  obtain ⟨-, hb, -⟩ := c5_dealias_amended ⟨"NEXRAD Level II", [[]]⟩ (some 3)
  have ha' := ha (by decide)
  have hb' := hb rfl
  exact ⟨(ha'.2.1 rfl).1, (ha'.2.1 rfl).2, ha'.1, hb'.1, hb'.2.1⟩

/-- Claim C6: the vendor fallback chains.  When the primary driver name exists the
filter uses it; on a KeyError the alternates are consulted in the documented
order; when no name of the chain exists — and for the chainless filters when
the single driver name is missing — the failure propagates to the caller. -/
theorem c6_fallback_chains :
    (∀ (r : Radar) (ns : List String) (lo hi : ℚ) (d : List Value),
      lookupF r "reflectivity" = some d →
      removeNoiseZ r ns lo hi = noiseOU d lo hi ns r) ∧
    (∀ (r : Radar) (ns : List String) (lo hi : ℚ) (dh dv : List Value),
      lookupF r "reflectivity" = none → lookupF r "DBZH" = some dh →
      lookupF r "DBZV" = some dv →
      removeNoiseZ r ns lo hi =
        maskAllOU (dh.map (vGT · hi)) (dv.map (vLT · lo)) ns r) ∧
    (∀ (r : Radar) (ns : List String) (lo hi : ℚ),
      lookupF r "reflectivity" = none → lookupF r "DBZH" = none →
      lookupF r "DBZV" = none → removeNoiseZ r ns lo hi = none) ∧
    (∀ (r : Radar) (ns : List String) (lo hi : ℚ) (d : List Value),
      lookupF r "cross_correlation_ratio" = some d →
      removeNoiseRhoHV r ns lo hi = noiseOU d lo hi ns r) ∧
    (∀ (r : Radar) (ns : List String) (lo hi : ℚ) (d : List Value),
      lookupF r "cross_correlation_ratio" = none →
      lookupF r "RHOHV" = some d →
      removeNoiseRhoHV r ns lo hi = noiseOU d lo hi ns r) ∧
    (∀ (r : Radar) (ns : List String) (lo hi : ℚ) (d : List Value),
      lookupF r "cross_correlation_ratio" = none →
      lookupF r "RHOHV" = none →
      lookupF r "correlation_coefficient" = some d →
      removeNoiseRhoHV r ns lo hi = noiseOU d lo hi ns r) ∧
    (∀ (r : Radar) (ns : List String) (lo hi : ℚ),
      lookupF r "cross_correlation_ratio" = none →
      lookupF r "RHOHV" = none →
      lookupF r "correlation_coefficient" = none →
      removeNoiseRhoHV r ns lo hi = none) ∧
    (∀ (r : Radar) (ns : List String) (lo hi : ℚ) (d : List Value),
      lookupF r "PHIDP" = some d →
      removeNoisePhiDP r ns lo hi = noiseOU d lo hi ns r) ∧
    (∀ (r : Radar) (ns : List String) (lo hi : ℚ) (d : List Value),
      lookupF r "PHIDP" = none →
      lookupF r "specific_differential_phase" = some d →
      removeNoisePhiDP r ns lo hi = noiseOU d lo hi ns r) ∧
    (∀ (r : Radar) (ns : List String) (lo hi : ℚ),
      lookupF r "PHIDP" = none →
      lookupF r "specific_differential_phase" = none →
      removeNoisePhiDP r ns lo hi = none) ∧
    (∀ (r : Radar) (ns : List String) (lo hi : ℚ),
      lookupF r "differential_reflectivity" = none →
      removeNoiseZdr r ns lo hi = none) ∧
    (∀ (r : Radar) (ns : List String) (lo hi : ℚ),
      lookupF r "normalized_coherent_power" = none →
      removeNoiseNCP r ns lo hi = none) ∧
    (∀ (r : Radar) (ns : List String) (lo hi : ℚ),
      lookupF r "snr" = none → removeNoiseSNR r ns lo hi = none) ∧
    (∀ (r : Radar) (f : String) (vmax vmin : ℚ),
      lookupF r f = none → set2range r f vmax vmin = none) := by
  refine ⟨?_, ?_, ?_, ?_, ?_, ?_, ?_, ?_, ?_, ?_, ?_, ?_, ?_, ?_⟩
  · intro r ns lo hi d h1
    simp [removeNoiseZ, h1]
  · intro r ns lo hi dh dv h1 h2 h3
    simp [removeNoiseZ, h1, h2, h3]
  · intro r ns lo hi h1 h2 h3
    simp [removeNoiseZ, h1, h2, h3]
  · intro r ns lo hi d h1
    simp [removeNoiseRhoHV, h1]
  · intro r ns lo hi d h1 h2
    simp [removeNoiseRhoHV, h1, h2]
  · intro r ns lo hi d h1 h2 h3
    simp [removeNoiseRhoHV, h1, h2, h3]
  · intro r ns lo hi h1 h2 h3
    simp [removeNoiseRhoHV, h1, h2, h3]
  · intro r ns lo hi d h1
    simp [removeNoisePhiDP, h1]
  · intro r ns lo hi d h1 h2
    simp [removeNoisePhiDP, h1, h2]
  · intro r ns lo hi h1 h2
    simp [removeNoisePhiDP, h1, h2]
  · intro r ns lo hi h1
    simp [removeNoiseZdr, h1]
  · intro r ns lo hi h1
    simp [removeNoiseNCP, h1]
  · intro r ns lo hi h1
    simp [removeNoiseSNR, h1]
  · intro r f vmax vmin h1
    simp [set2range, h1]

/-- Witness for C6, exercising every clause on small concrete volumes (the
empty volume for the propagated-error clauses). -/
theorem c6_fallback_chains_witness :
    removeNoiseZ ⟨[("reflectivity", [some 1])], [], []⟩ [] 0 9 =
      noiseOU [some 1] 0 9 [] ⟨[("reflectivity", [some 1])], [], []⟩ ∧
    removeNoiseZ ⟨[("DBZH", [some 1]), ("DBZV", [some 2])], [], []⟩ [] 0 9 =
      maskAllOU ([some (1 : ℚ)].map (vGT · 9)) ([some (2 : ℚ)].map (vLT · 0))
        [] ⟨[("DBZH", [some 1]), ("DBZV", [some 2])], [], []⟩ ∧
    removeNoiseZ ⟨[], [], []⟩ [] 0 9 = none ∧
    removeNoiseRhoHV ⟨[("cross_correlation_ratio", [some 1])], [], []⟩ [] 0 9 =
      noiseOU [some 1] 0 9 [] ⟨[("cross_correlation_ratio", [some 1])], [], []⟩ ∧
    removeNoiseRhoHV ⟨[("RHOHV", [some 1])], [], []⟩ [] 0 9 =
      noiseOU [some 1] 0 9 [] ⟨[("RHOHV", [some 1])], [], []⟩ ∧
    removeNoiseRhoHV ⟨[("correlation_coefficient", [some 1])], [], []⟩ [] 0 9 =
      noiseOU [some 1] 0 9 [] ⟨[("correlation_coefficient", [some 1])], [], []⟩ ∧
    removeNoiseRhoHV ⟨[], [], []⟩ [] 0 9 = none ∧
    removeNoisePhiDP ⟨[("PHIDP", [some 1])], [], []⟩ [] 0 9 =
      noiseOU [some 1] 0 9 [] ⟨[("PHIDP", [some 1])], [], []⟩ ∧
    removeNoisePhiDP ⟨[("specific_differential_phase", [some 1])], [], []⟩ [] 0 9 =
      noiseOU [some 1] 0 9 []
        ⟨[("specific_differential_phase", [some 1])], [], []⟩ ∧
    removeNoisePhiDP ⟨[], [], []⟩ [] 0 9 = none ∧
    removeNoiseZdr ⟨[], [], []⟩ [] 0 9 = none ∧
    removeNoiseNCP ⟨[], [], []⟩ [] 0 9 = none ∧
    removeNoiseSNR ⟨[], [], []⟩ [] 0 9 = none ∧
    set2range ⟨[], [], []⟩ "DBZ" 9 0 = none := by
  refine ⟨c6_fallback_chains.1 _ [] 0 9 [some 1] rfl,
    c6_fallback_chains.2.1 _ [] 0 9 [some 1] [some 2] rfl rfl rfl,
    c6_fallback_chains.2.2.1 _ [] 0 9 rfl rfl rfl,
    c6_fallback_chains.2.2.2.1 _ [] 0 9 [some 1] rfl,
    c6_fallback_chains.2.2.2.2.1 _ [] 0 9 [some 1] rfl rfl,
    c6_fallback_chains.2.2.2.2.2.1 _ [] 0 9 [some 1] rfl rfl rfl,
    c6_fallback_chains.2.2.2.2.2.2.1 _ [] 0 9 rfl rfl rfl,
    c6_fallback_chains.2.2.2.2.2.2.2.1 _ [] 0 9 [some 1] rfl,
    c6_fallback_chains.2.2.2.2.2.2.2.2.1 _ [] 0 9 [some 1] rfl rfl,
    c6_fallback_chains.2.2.2.2.2.2.2.2.2.1 _ [] 0 9 rfl rfl,
    c6_fallback_chains.2.2.2.2.2.2.2.2.2.2.1 _ [] 0 9 rfl,
    c6_fallback_chains.2.2.2.2.2.2.2.2.2.2.2.1 _ [] 0 9 rfl,
    c6_fallback_chains.2.2.2.2.2.2.2.2.2.2.2.2.1 _ [] 0 9 rfl,
    c6_fallback_chains.2.2.2.2.2.2.2.2.2.2.2.2.2 _ "DBZ" 9 0 rfl⟩

theorem strReplaceFuel_no_occur (pat rep : List Char) :
    ∀ (fuel : Nat) (s : List Char),
      (∀ i, ¬ pat.isPrefixOf (s.drop i) = true) →
      strReplaceFuel pat rep fuel s = s := by
  intro fuel
  induction fuel with
  | zero => intro s _; rfl
  | succ f ih =>
    intro s hno
    cases s with
    | nil => rfl
    | cons c t =>
      have h0 : ¬ pat.isPrefixOf (c :: t) = true := by
        have := hno 0
        simpa using this
      simp only [strReplaceFuel, if_neg h0]
      congr 1
      apply ih
      intro i
      have := hno (i + 1)
      simpa using this

theorem strReplaceFuel_at (pat rep : List Char) (hp : pat ≠ []) :
    ∀ (a b : List Char) (fuel : Nat),
      (∀ i, i < a.length → ¬ pat.isPrefixOf ((a ++ pat ++ b).drop i) = true) →
      (∀ i, ¬ pat.isPrefixOf (b.drop i) = true) →
      a.length + pat.length + b.length ≤ fuel →
      strReplaceFuel pat rep fuel (a ++ pat ++ b) = a ++ rep ++ b := by
  intro a
  induction a with
  | nil =>
    intro b fuel hocc hb hfuel
    cases pat with
    | nil => exact absurd rfl hp
    | cons p pt =>
      cases fuel with
      | zero => simp at hfuel
      | succ f =>
        have hpre : (p :: pt).isPrefixOf ((p :: pt) ++ b) = true := by
          rw [ List.isPrefixOf_iff_prefix]
          exact List.prefix_append (p :: pt) b
        simp only [List.nil_append]
        show strReplaceFuel (p :: pt) rep (f + 1) (p :: (pt ++ b)) = rep ++ b
        simp only [strReplaceFuel]
        rw [if_pos (show ((p :: pt).isPrefixOf (p :: (pt ++ b))) = true from hpre)]
        have hd : (p :: pt).length - 1 = pt.length := by simp
        rw [hd, List.drop_left]
        congr 1
        exact strReplaceFuel_no_occur (p :: pt) rep f b hb
  | cons x a' ih =>
    intro b fuel hocc hb hfuel
    cases fuel with
    | zero => simp at hfuel
    | succ f =>
      have h0 : ¬ pat.isPrefixOf ((x :: a') ++ pat ++ b) = true := by
        have := hocc 0 (by simp)
        simpa using this
      show strReplaceFuel pat rep (f + 1) (x :: (a' ++ pat ++ b)) = x :: (a' ++ rep ++ b)
      simp only [strReplaceFuel]
      rw [if_neg (by simpa using h0)]
      congr 1
      apply ih b f ?_ hb ?_
      · intro i hi
        have := hocc (i + 1) (by simpa using Nat.succ_lt_succ hi)
        simpa using this
      · simp only [List.length_cons] at hfuel
        omega

theorem strReplace_at (a pat b rep : List Char) (hp : pat ≠ [])
    (hocc : ∀ i, i < a.length → ¬ pat.isPrefixOf ((a ++ pat ++ b).drop i) = true)
    (hb : ∀ i, ¬ pat.isPrefixOf (b.drop i) = true) :
    strReplace (a ++ pat ++ b) pat rep = a ++ rep ++ b := by
  have hne : pat.isEmpty = false := by
    cases pat with
    | nil => exact absurd rfl hp
    | cons _ _ => rfl
  simp only [strReplace, hne, Bool.false_eq_true, if_false]
  apply strReplaceFuel_at pat rep hp a b _ hocc hb
  simp only [List.length_append]
  omega

theorem no_occur_of_longer (pat b : List Char) (h : b.length < pat.length) :
    ∀ i, ¬ pat.isPrefixOf (b.drop i) = true := by
  intro i hpre
  rw [ List.isPrefixOf_iff_prefix] at hpre
  have h1 := hpre.length_le
  have h2 : (b.drop i).length ≤ b.length := by
    rw [List.length_drop]
    omega
  omega

theorem pyIdx_of_nonneg (n : Nat) (i : Int) (h0 : 0 ≤ i) (hn : i ≤ (n : Int)) :
    pyIdx n i = i.toNat := by
  simp only [pyIdx, if_neg (not_lt.mpr h0)]
  rw [min_eq_left (by omega)]

theorem fixList_guard_false (s : List Char)
    (h : pySlice s ((s.length : Int) - 17) ((s.length : Int) - 15) ≠ ['s', '0']) :
    fixList s = s := by
  simp only [fixList]
  rw [if_neg h]

theorem toList_asString (s : String) : (s.toList).asString = s := rfl

/-- Counterexample for C9: `PPI_fixfilename` is not idempotent on its own
output.  On this malformed name the first application yields
`s0aaaaaSUR_cccccc`, whose guard slice is again `s0`, so a second
application rewrites it further (to `SUR_cccccc`). -/
theorem c9_not_idempotent_counterexample :
    PPI_fixfilename (PPI_fixfilename "s0aaaaas0bbbbbbbbbcccccc") ≠
      PPI_fixfilename "s0aaaaas0bbbbbbbbbcccccc" := by
  decide

/-- Claim C9 as amended: `PPI_fixfilename` is the identity — hence idempotent — on
every name whose guard slice [len-17, len-15) differs from `s0` (its own
output need not be such a name, so idempotence on all outputs fails); and on
a documented malformed pattern — an 11-character `s0…` segment at position
len-17 not ending in `0`, occurring nowhere earlier in the name, followed by
a 6-character tail — it replaces that segment with `SUR_`. -/
theorem c9_fixfilename_amended :
    (∀ s : String,
      pySlice s.toList ((s.toList.length : Int) - 17)
        ((s.toList.length : Int) - 15) ≠ ['s', '0'] →
      PPI_fixfilename (PPI_fixfilename s) = PPI_fixfilename s) ∧
    (∀ a c b : List Char, c.length = 11 → b.length = 6 →
      c.take 2 = ['s', '0'] →
      pySlice c (-1) (c.length : Int) ≠ ['0'] →
      (∀ i, i < a.length → ¬ c.isPrefixOf ((a ++ c ++ b).drop i) = true) →
      fixList (a ++ c ++ b) = a ++ surText ++ b) := by
  constructor
  · intro s h
    have h1 : PPI_fixfilename s = s := by
      simp only [PPI_fixfilename]
      rw [fixList_guard_false s.toList h, toList_asString]
    rw [h1]
    exact h1
  · intro a c b hc11 hb6 hc2 hc0 hocc
    have hlen : (a ++ c ++ b).length = a.length + 17 := by
      simp only [List.length_append, hc11, hb6]
    have hna : pyIdx (a ++ c ++ b).length
        (((a ++ c ++ b).length : Int) - 17) = a.length := by
      rw [hlen, pyIdx_of_nonneg _ _ (by omega) (by omega)]
      omega
    have hnb15 : pyIdx (a ++ c ++ b).length
        (((a ++ c ++ b).length : Int) - 15) = a.length + 2 := by
      rw [hlen, pyIdx_of_nonneg _ _ (by omega) (by omega)]
      omega
    have hnb6 : pyIdx (a ++ c ++ b).length
        (((a ++ c ++ b).length : Int) - 6) = a.length + 11 := by
      rw [hlen, pyIdx_of_nonneg _ _ (by omega) (by omega)]
      omega
    have hdrop : (a ++ c ++ b).drop a.length = c ++ b := by
      rw [List.append_assoc, List.drop_left]
    have hguard : pySlice (a ++ c ++ b) (((a ++ c ++ b).length : Int) - 17)
        (((a ++ c ++ b).length : Int) - 15) = ['s', '0'] := by
      simp only [pySlice]
      rw [hna, hnb15, hdrop]
      have h2 : a.length + 2 - a.length = 2 := by omega
      rw [h2, List.take_append_of_le_length (by omega), hc2]
    have hchop : pySlice (a ++ c ++ b) (((a ++ c ++ b).length : Int) - 17)
        (((a ++ c ++ b).length : Int) - 6) = c := by
      simp only [pySlice]
      rw [hna, hnb6, hdrop]
      have h11 : a.length + 11 - a.length = 11 := by omega
      rw [h11, ← hc11, List.take_left]
    have hcne : c ≠ [] := by
      intro hEq
      rw [hEq] at hc11
      simp at hc11
    simp only [fixList]
    rw [if_pos hguard, hchop, if_neg hc0]
    exact strReplace_at a c b surText hcne hocc
      (no_occur_of_longer c b (by omega))

/-- Witness for C9 (amended): the identity clause on `abc`, and the
substitution clause on the malformed name `xs0bbbbbbbbbcccccc`. -/
theorem c9_fixfilename_amended_witness :
    PPI_fixfilename (PPI_fixfilename "abc") = PPI_fixfilename "abc" ∧
    fixList (['x'] ++ ['s', '0', 'b', 'b', 'b', 'b', 'b', 'b', 'b', 'b', 'b'] ++
        ['c', 'c', 'c', 'c', 'c', 'c']) =
      ['x'] ++ surText ++ ['c', 'c', 'c', 'c', 'c', 'c'] :=
  ⟨c9_fixfilename_amended.1 "abc" (by decide),
    c9_fixfilename_amended.2 ['x']
      ['s', '0', 'b', 'b', 'b', 'b', 'b', 'b', 'b', 'b', 'b']
      ['c', 'c', 'c', 'c', 'c', 'c']
      (by decide) (by decide) (by decide) (by decide) (by decide)⟩

/-- Claim C10: `PPI_fixfilename` is total by construction in this embedding (all
slice and replace operations are total functions on arbitrary strings,
including those shorter than 17 characters), and whenever the Python slice
[len-17, len-15) differs from `s0` it returns its input unchanged. -/
theorem c10_fixfilename_guard_identity (s : String)
    (h : pySlice s.toList ((s.toList.length : Int) - 17)
        ((s.toList.length : Int) - 15) ≠ ['s', '0']) :
    PPI_fixfilename s = s := by
  simp only [PPI_fixfilename]
  rw [fixList_guard_false s.toList h, toList_asString]

/-- Witness for C10 on the three-character string `abc` (shorter than 17
characters, exercising the negative-index slice normalization). -/
theorem c10_fixfilename_guard_identity_witness :
    pySlice "abc".toList (("abc".toList.length : Int) - 17)
        (("abc".toList.length : Int) - 15) ≠ ['s', '0'] ∧
    PPI_fixfilename "abc" = "abc" :=
  ⟨by decide, c10_fixfilename_guard_identity "abc" (by decide)⟩

end QC

